import Mathlib

/-!
Shallow embedding of the resilient multi-provider network orchestration
layer of the shadow-market-tracker repository, together with proofs
checking its natural-language specification.

Embedded source files:
* `src/utils/fetchHandler.js` — the resilient transport (`robustFetch`,
  `shouldRetryError`, `getRetryDelay`).
* `src/config/apis.js` — the provider registry (`API_REGISTRY`), the
  intent classifier (`detectIntent`, `INTENT_MAPPINGS`), provider
  selection (`getApisForIntent`, `isApiAvailable`) and the orchestration
  engine (`executeApiWithFallback`, `executeMultipleApis`,
  `smartApiSelection`).

Network attempts, handler invocations and random jitter are modelled by
explicit oracle functions; the embedding records the observable trace
(attempt events, sleeps, handler invocations) so that temporal and
frame claims can be stated.
-/

set_option autoImplicit false

namespace ShadowTracker

/-- JavaScript `String.prototype.includes` on the underlying character
lists: `jsIncludesL needle hay` is true iff `needle` occurs as a
contiguous substring of `hay`. -/
def jsIncludesL (needle : List Char) : List Char → Bool
  | [] => needle.isEmpty
  | c :: rest => needle.isPrefixOf (c :: rest) || jsIncludesL needle rest

/-- `hay.includes(needle)` for strings. -/
def jsIncludes (hay needle : String) : Bool :=
  jsIncludesL needle.data hay.data

/-- JavaScript `String.prototype.toLowerCase` (ASCII fragment). -/
def jsToLower (s : String) : String :=
  ⟨s.data.map Char.toLower⟩

/-! ## Resilient transport: `src/utils/fetchHandler.js` -/

/-- `RETRY_DELAY_BASE = 1000` (fetchHandler.js line 8). -/
def RETRY_DELAY_BASE : ℚ := 1000

/-- An error value thrown inside the `robustFetch` attempt loop: the
`message`, the `name` and the optional HTTP `status` attached to it
(`error.status`; `none` models an absent/undefined property). -/
structure FetchError where
  message : String
  name : String
  status : Option Nat
  deriving DecidableEq, Repr

/-- Outcome of one underlying network attempt (direct or proxied):
either a resolved value or a thrown error.  The behaviour of the
network is an oracle of type `Nat → Bool → AttemptOutcome`, indexed by
the attempt number and by whether the attempt goes through the proxy. -/
inductive AttemptOutcome where
  | ok (data : String)
  | fail (e : FetchError)
  deriving DecidableEq, Repr

/-- Observable events of one `robustFetch` call: issuing attempt `n`
(in direct mode when the flag is `false`, via the background proxy when
`true`), and sleeping a backoff delay of `ms` milliseconds. -/
inductive FetchEvent where
  | attempt (n : Nat) (viaProxy : Bool)
  | sleep (ms : ℚ)
  deriving DecidableEq, Repr

/-- Final result of a `robustFetch` call: a resolved value, a thrown
error, or resolution with `undefined` (the attempt loop can be exited
by the CORS `continue` on the last allowed attempt, after which the
function body ends without a `return`). -/
inductive FetchResult where
  | success (data : String)
  | thrown (e : FetchError)
  | undef
  deriving DecidableEq, Repr

/-- The retryable-message fragments of `shouldRetryError`
(fetchHandler.js lines 374–379). -/
def retryableErrors : List String :=
  ["Failed to fetch", "NetworkError", "TimeoutError", "AbortError"]

/-- The retryable HTTP status set of `shouldRetryError`
(fetchHandler.js line 381). -/
def retryableStatuses : List Nat := [408, 429, 500, 502, 503, 504]

/-- The default (built-in) retry decision of `shouldRetryError`
(fetchHandler.js lines 373–393): retry on a retryable message fragment
or error name, or on a retryable HTTP status.  `error.status && …`
makes a status of `0` falsy, hence never retryable. -/
def defaultRetryable (e : FetchError) : Bool :=
  retryableErrors.any (fun t => jsIncludes e.message t || e.name == t)
    || (match e.status with
        | some s => s != 0 && retryableStatuses.contains s
        | none => false)

/-- `shouldRetryError(error, customCondition)` (fetchHandler.js lines
367–394): when a custom condition is supplied the function returns its
verdict immediately, otherwise it falls through to the built-in
conditions. -/
def shouldRetryError (e : FetchError) (customCondition : Option (FetchError → Bool)) : Bool :=
  match customCondition with
  | some f => f e
  | none => defaultRetryable e

/-- CORS classification of a caught error (fetchHandler.js lines
296–298). -/
def isCorsError (e : FetchError) : Bool :=
  jsIncludes e.message "CORS"
    || jsIncludes e.message "Cross-Origin Request Blocked"
    || jsIncludes e.message "Access-Control-Allow-Origin"

/-- `getRetryDelay(attempt)` (fetchHandler.js lines 58–60):
`RETRY_DELAY_BASE * 2^(attempt-1) + Math.random() * 1000`, with the
random draw passed in explicitly. -/
def getRetryDelay (attempt : Nat) (rnd : ℚ) : ℚ :=
  RETRY_DELAY_BASE * 2 ^ (attempt - 1) + rnd * 1000

/-- The `robustFetch` attempt loop (fetchHandler.js lines 177–363).
`fuel` counts the remaining loop iterations (the loop runs while
`attempt ≤ maxRetries`, so from attempt `a` there are
`maxRetries - a + 1` iterations left); when the fuel is exhausted the
`for` loop has completed without a `return`, and the function resolves
with `undefined`.  Per iteration: a successful attempt returns; a
failure on the first direct attempt classified as a CORS error switches
`shouldUseProxy` on and immediately continues; otherwise the error is
retried (after sleeping the backoff delay) exactly when this is not the
last attempt and `shouldRetryError` says so, and is thrown otherwise. -/
def robustLoop (maxRetries : Nat) (cond : Option (FetchError → Bool))
    (outcome : Nat → Bool → AttemptOutcome) (random : Nat → ℚ) :
    Nat → Nat → Bool → List FetchEvent × FetchResult
  | 0, _, _ => ([], .undef)
  | fuel + 1, attempt, proxy =>
    match outcome attempt proxy with
    | .ok d => ([.attempt attempt proxy], .success d)
    | .fail e =>
      if isCorsError e && !proxy && (attempt == 1) then
        let rest := robustLoop maxRetries cond outcome random fuel (attempt + 1) true
        (.attempt attempt proxy :: rest.1, rest.2)
      else if !(attempt == maxRetries) && shouldRetryError e cond then
        let rest := robustLoop maxRetries cond outcome random fuel (attempt + 1) proxy
        (.attempt attempt proxy :: .sleep (getRetryDelay attempt (random attempt)) :: rest.1,
          rest.2)
      else
        ([.attempt attempt proxy], .thrown e)

/-- One `robustFetch(url, options)` call (fetchHandler.js lines
63–364), restricted to its attempt loop: `maxRetries` and the optional
`retryCondition` come from the options, `useProxy` is the initial proxy
flag, and the network and jitter are oracles.  Returns the event trace
and the final result. -/
def robustFetch (maxRetries : Nat) (cond : Option (FetchError → Bool)) (useProxy : Bool)
    (outcome : Nat → Bool → AttemptOutcome) (random : Nat → ℚ) :
    List FetchEvent × FetchResult :=
  robustLoop maxRetries cond outcome random maxRetries 1 useProxy

/-- The proxy flags of the attempt events of a trace, in order. -/
def attemptModes : List FetchEvent → List Bool
  | [] => []
  | .attempt _ p :: rest => p :: attemptModes rest
  | .sleep _ :: rest => attemptModes rest

/-! ## Provider registry: `src/config/apis.js` lines 27–410 -/

/-- A registry entry of `API_REGISTRY` (the `handler` capability is
modelled separately by a handler oracle). -/
structure ApiDescriptor where
  name : String
  category : String
  priority : Nat
  requiresKey : Bool
  keyType : Option String := none
  fallbacks : List String
  deriving DecidableEq, Repr

/-- The declarative provider catalog `API_REGISTRY` (apis.js lines
27–410), in declaration order. -/
def API_REGISTRY : List (String × ApiDescriptor) :=
  [ ("serpapi_google",
     { name := "Google Search (SerpAPI)", category := "search", priority := 1,
       requiresKey := true, keyType := some "serpapi",
       fallbacks := ["wikipedia_search", "duckduckgo_instant"] }),
    ("wikipedia_search",
     { name := "Wikipedia Search", category := "search", priority := 1,
       requiresKey := false, fallbacks := ["duckduckgo_instant"] }),
    ("duckduckgo_instant",
     { name := "DuckDuckGo Instant Answer", category := "search", priority := 2,
       requiresKey := false, fallbacks := [] }),
    ("newsapi_everything",
     { name := "NewsAPI Everything", category := "news", priority := 1,
       requiresKey := true, keyType := some "newsapi",
       fallbacks := ["serpapi_news", "reddit_search"] }),
    ("serpapi_news",
     { name := "News Search (SerpAPI)", category := "news", priority := 1,
       requiresKey := true, keyType := some "serpapi",
       fallbacks := ["reddit_search"] }),
    ("reddit_search",
     { name := "Reddit Search", category := "news", priority := 2,
       requiresKey := false, fallbacks := [] }),
    ("openweather_current",
     { name := "OpenWeatherMap Current", category := "weather", priority := 1,
       requiresKey := true, keyType := some "openweather",
       fallbacks := ["weatherapi_current"] }),
    ("weatherapi_current",
     { name := "WeatherAPI Current", category := "weather", priority := 1,
       requiresKey := true, keyType := some "rapidapi",
       fallbacks := [] }),
    ("alphavantage_quote",
     { name := "Alpha Vantage Quote", category := "stocks", priority := 1,
       requiresKey := true, keyType := some "alphavantage",
       fallbacks := ["yahoo_finance"] }),
    ("yahoo_finance",
     { name := "Yahoo Finance", category := "stocks", priority := 2,
       requiresKey := false, fallbacks := [] }),
    ("omdb_search",
     { name := "OMDB API", category := "movies", priority := 1,
       requiresKey := true, keyType := some "omdb",
       fallbacks := ["tmdb_search"] }),
    ("tmdb_search",
     { name := "The Movie Database", category := "movies", priority := 1,
       requiresKey := true, keyType := some "tmdb",
       fallbacks := [] }),
    ("github_search",
     { name := "GitHub Repository Search", category := "tech", priority := 1,
       requiresKey := false, fallbacks := [] }) ]

/-- `registry[id]` — lookup of a provider id in a registry. -/
def lookupIn (registry : List (String × ApiDescriptor)) (id : String) : Option ApiDescriptor :=
  registry.lookup id

/-- Lookup in the concrete catalog (`API_REGISTRY[apiId]`). -/
def lookupApi (id : String) : Option ApiDescriptor :=
  lookupIn API_REGISTRY id

/-- The credential store: `getStoredApiKey(provider)` reads
`chrome.storage.local` and yields the stored key or `null` (apis.js
lines 447–455).  Modelled as a function from the provider key type to
the optionally stored secret. -/
def CredStore : Type := String → Option String

/-- `isApiAvailable(api)` (apis.js lines 529–536): available iff no key
is required or the required key type has a stored key.  In the source
this is an `async` function resolving to a boolean; this is its
resolved value. -/
def isApiAvailable (api : ApiDescriptor) (store : CredStore) : Bool :=
  if !api.requiresKey then true
  else
    match api.keyType with
    | some k => (store k).isSome
    | none => false

/-- Availability of a candidate id: registered and `isApiAvailable`. -/
def candidateAvailable (registry : List (String × ApiDescriptor)) (store : CredStore)
    (id : String) : Bool :=
  match lookupIn registry id with
  | some api => isApiAvailable api store
  | none => false

/-! ## Intent classifier: `src/config/apis.js` lines 413–499 -/

/-- One entry of `INTENT_MAPPINGS`. -/
structure IntentMapping where
  primary : List String
  fallback : List String
  keywords : List String
  deriving DecidableEq, Repr

/-- `INTENT_MAPPINGS` (apis.js lines 413–444), in declaration order. -/
def INTENT_MAPPINGS : List (String × IntentMapping) :=
  [ ("search",
     { primary := ["serpapi_google", "wikipedia_search"],
       fallback := ["duckduckgo_instant"],
       keywords := ["search", "find", "lookup", "what is", "who is", "where is"] }),
    ("news",
     { primary := ["newsapi_everything", "serpapi_news"],
       fallback := ["reddit_search"],
       keywords := ["news", "latest", "breaking", "headlines", "updates"] }),
    ("weather",
     { primary := ["openweather_current", "weatherapi_current"],
       fallback := [],
       keywords := ["weather", "temperature", "forecast", "climate", "rain", "sunny"] }),
    ("stocks",
     { primary := ["alphavantage_quote", "yahoo_finance"],
       fallback := [],
       keywords := ["stock", "shares", "price", "quote", "market", "trading"] }),
    ("movies",
     { primary := ["omdb_search", "tmdb_search"],
       fallback := [],
       keywords := ["movie", "film", "cinema", "actor", "director", "imdb"] }),
    ("tech",
     { primary := ["github_search"],
       fallback := ["serpapi_google"],
       keywords := ["github", "repository", "code", "programming", "software"] }) ]

/-- The keyword score of one intent category: for every keyword that
occurs as a substring of the (already lower-cased) query, add the
keyword's length (apis.js lines 465–471). -/
def keywordScore (lowerQuery : String) (keywords : List String) : Nat :=
  keywords.foldl (fun s kw => if jsIncludes lowerQuery kw then s + kw.length else s) 0

/-- The positively-scoring intents of a query with their scores, in the
declaration order of `INTENT_MAPPINGS` (the iteration/insertion order
of the `intentScores` object, apis.js lines 462–476). -/
def intentScores (query : String) : List (String × Nat) :=
  let lower := jsToLower query
  INTENT_MAPPINGS.foldr
    (fun p acc =>
      let sc := keywordScore lower p.2.keywords
      if 0 < sc then (p.1, sc) :: acc else acc)
    []

/-- Stable insertion of a scored intent into a descending-sorted list:
the inserted element precedes exactly the entries with strictly smaller
score (it comes first among equals, mirroring the stability of
`Array.prototype.sort` with comparator `(a, b) => b - a`). -/
def insDesc (x : String × Nat) : List (String × Nat) → List (String × Nat)
  | [] => [x]
  | y :: ys => if x.2 < y.2 then y :: insDesc x ys else x :: y :: ys

/-- Stable sort by descending score (`sortedIntents`, apis.js lines
479–480). -/
def sortDesc : List (String × Nat) → List (String × Nat)
  | [] => []
  | x :: xs => insDesc x (sortDesc xs)

/-- A scored alternative intent. -/
structure ScoredIntent where
  intent : String
  confidence : ℚ
  deriving DecidableEq, Repr

/-- The result of `detectIntent` (apis.js lines 482–498). -/
structure IntentResult where
  intent : String
  confidence : ℚ
  alternatives : List ScoredIntent
  deriving DecidableEq, Repr

/-- `detectIntent(query)` (apis.js lines 458–499): score every intent
category, sort descending, return the winner with
`confidence = score / query.length` and the rest as alternatives; when
nothing scores, default to `search` with confidence `0.1`. -/
def detectIntent (query : String) : IntentResult :=
  match sortDesc (intentScores query) with
  | [] => { intent := "search", confidence := 1 / 10, alternatives := [] }
  | (i, s) :: rest =>
    { intent := i,
      confidence := (s : ℚ) / (query.length : ℚ),
      alternatives :=
        rest.map fun p => { intent := p.1, confidence := (p.2 : ℚ) / (query.length : ℚ) } }

/-! Spec-side classifier, following the words of the specification:
"The category with the highest score wins … Ties broken by catalog
declaration order (first registered intent wins) … alternatives =
remaining scored intents sorted descending, confidence-normalized the
same way." -/

/-- The maximal score of a scored-intent list. -/
def maxScore : List (String × Nat) → Nat
  | [] => 0
  | p :: ps => max p.2 (maxScore ps)

/-- The first entry of `x :: xs` attaining the maximal score (the
declaration-order tie break of the specification). -/
def firstMaxD (x : String × Nat) : List (String × Nat) → String × Nat
  | [] => x
  | y :: ys => if maxScore (y :: ys) ≤ x.2 then x else firstMaxD y ys

/-- `x :: xs` with its first maximal-score entry removed. -/
def dropFirstMaxD (x : String × Nat) : List (String × Nat) → List (String × Nat)
  | [] => []
  | y :: ys => if maxScore (y :: ys) ≤ x.2 then y :: ys else x :: dropFirstMaxD y ys

/-- The classifier as worded by the specification: the first
highest-scoring category wins, the remaining positively-scoring
categories are the alternatives sorted by descending score, everything
normalized by the query length; `search`/`0.1` when nothing scores. -/
def classifySpec (query : String) : IntentResult :=
  match intentScores query with
  | [] => { intent := "search", confidence := 1 / 10, alternatives := [] }
  | x :: xs =>
    let w := firstMaxD x xs
    { intent := w.1,
      confidence := (w.2 : ℚ) / (query.length : ℚ),
      alternatives :=
        (sortDesc (dropFirstMaxD x xs)).map
          fun p => { intent := p.1, confidence := (p.2 : ℚ) / (query.length : ℚ) } }

/-! ## Provider selection: `getApisForIntent` (apis.js lines 502–526) -/

/-- In the source, `getApisForIntent` is a plain (non-`async`) function
whose filter condition is `includeUnavailable || isApiAvailable(api)`;
`isApiAvailable` is `async`, so the un-awaited call evaluates to a
`Promise` object, which is truthy in a boolean context.  This constant
is that truthiness. -/
def promiseIsTruthy : Bool := true

/-- Stable insertion for the ascending priority sort
(`apis.sort((a, b) => a.priority - b.priority)`, apis.js line 525). -/
def insByPriority (x : String × ApiDescriptor) :
    List (String × ApiDescriptor) → List (String × ApiDescriptor)
  | [] => [x]
  | y :: ys => if y.2.priority < x.2.priority then y :: insByPriority x ys else x :: y :: ys

/-- Stable sort by ascending priority. -/
def sortByPriority : List (String × ApiDescriptor) → List (String × ApiDescriptor)
  | [] => []
  | x :: xs => insByPriority x (sortByPriority xs)

/-- `getApisForIntent(intent, includeUnavailable)` (apis.js lines
502–526): gather the intent's primary providers that pass the filter
condition, add the fallback providers when the list is empty or
`includeUnavailable` is set, and sort by priority.  Note that the
availability side of the filter is `promiseIsTruthy` (see that
definition), so the credential store plays no role here. -/
def getApisForIntent (intent : String) (includeUnavailable : Bool) :
    List (String × ApiDescriptor) :=
  let mapping := (INTENT_MAPPINGS.lookup intent).getD
    { primary := ["serpapi_google", "wikipedia_search"],
      fallback := ["duckduckgo_instant"],
      keywords := ["search", "find", "lookup", "what is", "who is", "where is"] }
  let primaries := mapping.primary.foldr
    (fun id acc =>
      match lookupApi id with
      | some api =>
        if includeUnavailable || promiseIsTruthy then (id, api) :: acc else acc
      | none => acc)
    []
  let apis :=
    if primaries.isEmpty || includeUnavailable then
      primaries ++ mapping.fallback.foldr
        (fun id acc =>
          match lookupApi id with
          | some api =>
            if includeUnavailable || promiseIsTruthy then (id, api) :: acc else acc
          | none => acc)
        []
    else primaries
  sortByPriority apis

/-! ## Orchestrator: `executeApiWithFallback` (apis.js lines 539–581) -/

/-- The message thrown by the in-loop availability check (apis.js line
555). -/
def keyMissingMsg (id : String) : String :=
  "API " ++ id ++ " requires a key but none found"

/-- The terminal message (apis.js line 580):
`` `All APIs failed. Last error: ${lastError?.message || 'Unknown error'}` ``. -/
def allFailedMsg (lastError : Option String) : String :=
  "All APIs failed. Last error: " ++
    match lastError with
    | some m => m
    | none => "Unknown error"

/-- The success object of `executeApiWithFallback` (apis.js lines
561–567). -/
structure ExecSuccess where
  data : String
  api : String
  apiName : String
  wasFallback : Bool
  deriving DecidableEq, Repr

/-- The two throws of `executeApiWithFallback`: the unknown-primary-id
configuration throw (apis.js line 542) and chain exhaustion (line
580). -/
inductive ExecError where
  | unknownApi (msg : String)
  | allFailed (msg : String)
  deriving DecidableEq, Repr

instance {ε α : Type} [DecidableEq ε] [DecidableEq α] : DecidableEq (Except ε α) := fun x y =>
  match x, y with
  | .ok a, .ok b =>
    if h : a = b then .isTrue (by rw [h]) else .isFalse (fun he => h (Except.ok.inj he))
  | .error a, .error b =>
    if h : a = b then .isTrue (by rw [h]) else .isFalse (fun he => h (Except.error.inj he))
  | .ok _, .error _ => .isFalse (fun he => Except.noConfusion he)
  | .error _, .ok _ => .isFalse (fun he => Except.noConfusion he)

/-- A provider handler oracle: the outcome of `api.handler(query,
options)` for each provider id of the current call (success data or a
thrown error message). -/
def HandlerOracle : Type := String → Except String String

/-- The candidate loop of `executeApiWithFallback` (apis.js lines
548–581).  `origin` is the primary `apiId` (for `wasFallback`),
`lastId` is `callStack[callStack.length - 1]` (the break condition of
line 574).  Besides the result it returns the list of candidate ids
whose handler was actually invoked (the network calls issued on behalf
of the call), in order. -/
def execGo (registry : List (String × ApiDescriptor)) (store : CredStore)
    (handler : HandlerOracle) (origin lastId : String) :
    List String → Option String → (Except ExecError ExecSuccess × List String)
  | [], lastError => (.error (.allFailed (allFailedMsg lastError)), [])
  | cur :: rest, lastError =>
    match lookupIn registry cur with
    | none => execGo registry store handler origin lastId rest lastError
    | some api =>
      if isApiAvailable api store then
        match handler cur with
        | .ok d => (.ok { data := d, api := cur, apiName := api.name,
                          wasFallback := cur != origin }, [cur])
        | .error e =>
          if cur == lastId then (.error (.allFailed (allFailedMsg (some e))), [cur])
          else
            let r := execGo registry store handler origin lastId rest (some e)
            (r.1, cur :: r.2)
      else
        let msg := keyMissingMsg cur
        if cur == lastId then (.error (.allFailed (allFailedMsg (some msg))), [])
        else execGo registry store handler origin lastId rest (some msg)

/-- `executeApiWithFallback(apiId, query, options)` (apis.js lines
539–581) over an explicit registry: reject an unknown primary id, then
run the candidate loop over `[apiId, ...api.fallbacks]`. -/
def executeApiWithFallback (registry : List (String × ApiDescriptor)) (store : CredStore)
    (handler : HandlerOracle) (apiId : String) :
    Except ExecError ExecSuccess × List String :=
  match lookupIn registry apiId with
  | none => (.error (.unknownApi ("Unknown API: " ++ apiId)), [])
  | some api =>
    let callStack := apiId :: api.fallbacks
    execGo registry store handler apiId (callStack.getLastD "") callStack none

/-! ## Multi-provider execution and smart selection (apis.js lines 584–623) -/

/-- One element of the array returned by `smartApiSelection`: either a
success object (with the extra `apiId` field added by
`executeMultipleApis`; the single-provider branch adds none, modelled
by `none`) or the catch object of `executeMultipleApis` (apis.js lines
588–593). -/
inductive SmartEntry where
  | ok (data api apiName : String) (wasFallback : Bool) (apiId : Option String)
  | err (errorMsg apiId apiName : String)
  deriving DecidableEq, Repr

/-- The `message` of a thrown orchestration error. -/
def execErrMsg : ExecError → String
  | .unknownApi m => m
  | .allFailed m => m

/-- `executeMultipleApis(apiIds, query, options)` (apis.js lines
584–601): run `executeApiWithFallback` for every id, mapping a success
to the success object extended with `apiId` and a failure to the
`{ success: false, error, apiId, apiName }` object. -/
def executeMultipleApis (registry : List (String × ApiDescriptor)) (store : CredStore)
    (handler : HandlerOracle) (apiIds : List String) : List SmartEntry :=
  apiIds.map fun id =>
    match (executeApiWithFallback registry store handler id).1 with
    | .ok r => .ok r.data r.api r.apiName r.wasFallback (some id)
    | .error e =>
      .err (execErrMsg e) id
        (match lookupIn registry id with
         | some a => a.name
         | none => id)

/-- The options of `smartApiSelection` that matter to its control flow
(`options.useMultiple`, `options.maxApis`). -/
structure SmartOptions where
  useMultiple : Bool
  maxApis : Option Nat := none
  deriving DecidableEq, Repr

/-- `smartApiSelection(query, options)` (apis.js lines 604–623):
classify the query, fetch the provider list, throw when it is empty,
then either fan out over the first `maxApis || 2` providers (when
`useMultiple` is set or confidence is below `0.5`) or run a single
`executeApiWithFallback` on the top provider (whose throw propagates
to the caller). -/
def smartApiSelection (store : CredStore) (handler : HandlerOracle)
    (query : String) (opts : SmartOptions) : Except String (List SmartEntry) :=
  let intentResult := detectIntent query
  match getApisForIntent intentResult.intent false with
  | [] => .error ("No available APIs for intent: " ++ intentResult.intent)
  | top :: more =>
    if opts.useMultiple || intentResult.confidence < 1 / 2 then
      let maxApis :=
        match opts.maxApis with
        | some k => if k == 0 then 2 else k
        | none => 2
      .ok (executeMultipleApis API_REGISTRY store handler
        (((top :: more).take maxApis).map (·.1)))
    else
      match (executeApiWithFallback API_REGISTRY store handler top.1).1 with
      | .ok r => .ok [.ok r.data r.api r.apiName r.wasFallback none]
      | .error e => .error (execErrMsg e)

/-! ## Derived notions used by the theorems -/

/-- The failure message of a candidate when every candidate fails:
its handler's error when it is available, the credential-missing
message when it is not. -/
def candidateFailMsg (registry : List (String × ApiDescriptor)) (store : CredStore)
    (E : String → String) (c : String) : String :=
  if candidateAvailable registry store c then E c else keyMissingMsg c

/-- Sanity of a primary id's call chain in a registry: every candidate
of `[apiId, ...fallbacks]` is registered, and no candidate before the
last one equals the last one (so the `break` of apis.js line 574 fires
exactly at the end of the chain). -/
def chainOk (apiId : String) : Bool :=
  match lookupApi apiId with
  | none => true
  | some api =>
    let stack := apiId :: api.fallbacks
    stack.all (fun c => (lookupApi c).isSome) &&
      stack.dropLast.all (fun c => c != stack.getLastD "")

/-! ## Concrete instances used by witnesses and counterexamples -/

/-- A credential store holding no key at all. -/
def emptyStore : CredStore := fun _ => none

/-- A store in which exactly the OpenWeatherMap key is configured. -/
def owOnlyStore : CredStore := fun k => if k = "openweather" then some "OW-KEY" else none

/-- A handler oracle for which the OpenWeatherMap provider succeeds
and every other handler fails. -/
def owOnlyHandler : HandlerOracle := fun c =>
  if c = "openweather_current" then .ok "W" else .error ("handler failed for " ++ c)

/-- The registry descriptor of `yahoo_finance`. -/
def yahooDesc : ApiDescriptor :=
  { name := "Yahoo Finance", category := "stocks", priority := 2,
    requiresKey := false, keyType := none, fallbacks := [] }

/-- The registry descriptor of `omdb_search`. -/
def omdbDesc : ApiDescriptor :=
  { name := "OMDB API", category := "movies", priority := 1,
    requiresKey := true, keyType := some "omdb", fallbacks := ["tmdb_search"] }

/-- The registry descriptor of `openweather_current`. -/
def owDesc : ApiDescriptor :=
  { name := "OpenWeatherMap Current", category := "weather", priority := 1,
    requiresKey := true, keyType := some "openweather",
    fallbacks := ["weatherapi_current"] }

/-- The registry descriptor of `weatherapi_current`. -/
def waDesc : ApiDescriptor :=
  { name := "WeatherAPI Current", category := "weather", priority := 1,
    requiresKey := true, keyType := some "rapidapi", fallbacks := [] }

/-- A two-provider registry in which the fallback chain of `alpha`
references the nonexistent id `ghost` (a typo'd id). -/
def typoRegistry : List (String × ApiDescriptor) :=
  [ ("alpha",
     { name := "Alpha", category := "search", priority := 1,
       requiresKey := false, fallbacks := ["ghost", "beta"] }),
    ("beta",
     { name := "Beta", category := "search", priority := 2,
       requiresKey := false, fallbacks := [] }) ]

/-- Handlers for `typoRegistry`: `alpha` fails, `beta` succeeds. -/
def typoHandler : HandlerOracle := fun c =>
  if c = "beta" then .ok "B" else .error "alpha down"

/-- A non-CORS error carrying HTTP status 500 (a member of the built-in
retryable status set). -/
def err500 : FetchError :=
  { message := "HTTP 500: Internal Server Error - upstream broke", name := "Error",
    status := some 500 }

/-- An error whose message matches the CORS classification patterns. -/
def corsErr : FetchError :=
  { message := "TypeError: blocked by CORS policy", name := "TypeError", status := none }

/-- A network oracle: the first attempt fails with `err500`, any later
attempt succeeds. -/
def failThenOk : Nat → Bool → AttemptOutcome := fun n _ =>
  if n = 1 then .fail err500 else .ok "ok"

/-- A network oracle: the first direct attempt fails with a CORS error,
everything else succeeds. -/
def corsThenOk : Nat → Bool → AttemptOutcome := fun n p =>
  if n = 1 && !p then .fail corsErr else .ok "d"

/-- A constant jitter draw of one half. -/
def halfJitter : Nat → ℚ := fun _ => 1 / 2

/-! ## Classifier lemmas -/

/-- The score of the first maximal entry is the maximal score. -/
theorem firstMaxD_snd : ∀ (xs : List (String × Nat)) (x : String × Nat),
    (firstMaxD x xs).2 = max x.2 (maxScore xs)
  | [], x => by simp [firstMaxD, maxScore]
  | y :: ys, x => by
    simp only [firstMaxD, maxScore]
    by_cases h : max y.2 (maxScore ys) ≤ x.2
    · simp only [if_pos h]
      omega
    · simp only [if_neg h, firstMaxD_snd ys y]
      omega

/-- The stable descending sort puts the first maximal entry first,
followed by the sort of the rest. -/
theorem sortDesc_cons_eq : ∀ (xs : List (String × Nat)) (x : String × Nat),
    sortDesc (x :: xs) = firstMaxD x xs :: sortDesc (dropFirstMaxD x xs)
  | [], x => by simp [sortDesc, insDesc, firstMaxD, dropFirstMaxD]
  | y :: ys, x => by
    have ih := sortDesc_cons_eq ys y
    have hm := firstMaxD_snd ys y
    have e1 : sortDesc (x :: y :: ys) = insDesc x (sortDesc (y :: ys)) := rfl
    by_cases h : maxScore (y :: ys) ≤ x.2
    · have hx : ¬ x.2 < (firstMaxD y ys).2 := by
        rw [hm]
        simp only [maxScore] at h
        omega
      rw [e1, ih]
      simp only [insDesc, if_neg hx, firstMaxD, dropFirstMaxD, if_pos h]
      rw [ih]
    · have hx : x.2 < (firstMaxD y ys).2 := by
        rw [hm]
        simp only [maxScore] at h
        omega
      rw [e1, ih]
      simp only [insDesc, if_pos hx, firstMaxD, dropFirstMaxD, if_neg h]
      have e2 : sortDesc (x :: dropFirstMaxD y ys)
          = insDesc x (sortDesc (dropFirstMaxD y ys)) := rfl
      rw [e2]

/-- Claim C8 (confirmed): `detectIntent` computes exactly the
spec-described classification: each category is scored by the summed
lengths of its keywords occurring in the lower-cased query; the first
(declaration-order) highest-scoring category wins with
`confidence = score / len(query)`; the remaining positively-scoring
categories are the alternatives, sorted by descending score with the
same normalization and the same tie break; when nothing scores the
result is intent `search` with confidence `0.1` and no alternatives. -/
theorem c8_intent_classifier (query : String) : detectIntent query = classifySpec query := by
  unfold detectIntent classifySpec
  cases h : intentScores query with
  | nil => simp [sortDesc]
  | cons x xs => rw [sortDesc_cons_eq xs x]

/-! ## Orchestrator lemmas -/

/-- A successful association-list lookup comes from a member pair. -/
theorem lookup_mem : ∀ (l : List (String × ApiDescriptor)) (k : String) (v : ApiDescriptor),
    l.lookup k = some v → (k, v) ∈ l
  | [], _, _, h => by simp [List.lookup] at h
  | (a, b) :: es, k, v, h => by
    simp only [List.lookup] at h
    cases hk : k == a with
    | true =>
      simp only [hk] at h
      obtain rfl : b = v := by injection h
      obtain rfl : k = a := eq_of_beq hk
      exact List.mem_cons_self _ _
    | false =>
      simp only [hk] at h
      exact List.mem_cons_of_mem _ (lookup_mem es k v h)

/-- One-step unfolding of the candidate loop on a nonempty chain. -/
theorem execGo_cons (registry : List (String × ApiDescriptor)) (store : CredStore)
    (handler : HandlerOracle) (origin lastId cur : String) (rest : List String)
    (le : Option String) :
    execGo registry store handler origin lastId (cur :: rest) le
      = match lookupIn registry cur with
        | none => execGo registry store handler origin lastId rest le
        | some api =>
          if isApiAvailable api store then
            match handler cur with
            | .ok d => (.ok { data := d, api := cur, apiName := api.name,
                              wasFallback := cur != origin }, [cur])
            | .error e =>
              if cur == lastId then (.error (.allFailed (allFailedMsg (some e))), [cur])
              else
                ((execGo registry store handler origin lastId rest (some e)).1,
                 cur :: (execGo registry store handler origin lastId rest (some e)).2)
          else
            if cur == lastId then
              (.error (.allFailed (allFailedMsg (some (keyMissingMsg cur)))), [])
            else execGo registry store handler origin lastId rest (some (keyMissingMsg cur)) :=
  rfl

/-- The default-fallback last element of a nonempty list is a member. -/
theorem getLastD_cons_mem : ∀ (l : List String) (x : String), (x :: l).getLastD "" ∈ x :: l
  | [], x => by simp [List.getLastD]
  | y :: ys, x => by
    have := getLastD_cons_mem ys y
    simp only [List.getLastD] at this ⊢
    exact List.mem_cons_of_mem _ this

/-- Every candidate whose handler is invoked by the fallback loop is
registered and available: the pre-flight credential check runs before
any handler call. -/
theorem execGo_invoked_available (registry : List (String × ApiDescriptor)) (store : CredStore)
    (handler : HandlerOracle) (origin lastId : String) :
    ∀ (stack : List String) (le : Option String) (c : String),
      c ∈ (execGo registry store handler origin lastId stack le).2 →
      ∃ api, lookupIn registry c = some api ∧ isApiAvailable api store = true
  | [], le, c, hc => by simp [execGo] at hc
  | cur :: rest, le, c, hc => by
    rw [execGo_cons] at hc
    cases hl : lookupIn registry cur with
    | none =>
      simp only [hl] at hc
      exact execGo_invoked_available registry store handler origin lastId rest le c hc
    | some api =>
      by_cases ha : isApiAvailable api store = true
      · cases hh : handler cur with
        | ok d =>
          simp [hl, ha, hh] at hc
          subst hc
          exact ⟨api, hl, ha⟩
        | error e =>
          by_cases hlast : (cur == lastId) = true
          · simp [hl, ha, hh, hlast] at hc
            subst hc
            exact ⟨api, hl, ha⟩
          · simp [hl, ha, hh, hlast] at hc
            rcases hc with rfl | hc'
            · exact ⟨api, hl, ha⟩
            · exact execGo_invoked_available registry store handler origin lastId rest
                (some e) c hc'
      · by_cases hlast : (cur == lastId) = true
        · simp [hl, ha, hlast] at hc
        · simp [hl, ha, hlast] at hc
          exact execGo_invoked_available registry store handler origin lastId rest
            (some (keyMissingMsg cur)) c hc

/-- When every candidate of the chain fails — by an unavailable
credential, or by its handler failing with message `E c` — the loop
returns the aggregated error carrying the last candidate's failure
message, and invokes exactly the available candidates in chain order. -/
theorem execGo_every_fail (registry : List (String × ApiDescriptor)) (store : CredStore)
    (handler : HandlerOracle) (E : String → String) (origin lastId : String) :
    ∀ (stack : List String) (le : Option String),
      stack ≠ [] →
      stack.getLastD "" = lastId →
      (∀ c ∈ stack, (lookupIn registry c).isSome = true) →
      (∀ c ∈ stack.dropLast, c ≠ lastId) →
      (∀ c ∈ stack, candidateAvailable registry store c = true →
        handler c = Except.error (E c)) →
      execGo registry store handler origin lastId stack le
        = (.error (.allFailed (allFailedMsg (some (candidateFailMsg registry store E lastId)))),
           stack.filter (fun c => candidateAvailable registry store c))
  | [], _, hne, _, _, _, _ => absurd rfl hne
  | [c], le, _, hlast, hreg, _, hfail => by
    simp only [List.getLastD] at hlast
    subst hlast
    obtain ⟨api, hl⟩ := Option.isSome_iff_exists.mp (hreg c (List.mem_singleton.mpr rfl))
    have hca : candidateAvailable registry store c = isApiAvailable api store := by
      simp [candidateAvailable, hl]
    simp only [execGo, hl]
    by_cases ha : isApiAvailable api store = true
    · have hh := hfail c (List.mem_singleton.mpr rfl) (hca.trans ha)
      simp [ha, hh, candidateFailMsg, hca, List.filter]
    · have ha' : isApiAvailable api store = false := by
        cases hb : isApiAvailable api store
        · rfl
        · exact absurd hb ha
      simp [ha', candidateFailMsg, hca, List.filter]
  | c :: d :: rest, le, _, hlast, hreg, hdrop, hfail => by
    have hlast' : (d :: rest).getLastD "" = lastId := by
      simp only [List.getLastD] at hlast ⊢
      exact hlast
    have hne : c ≠ lastId := by
      apply hdrop
      simp [List.dropLast]
    have hne' : (c == lastId) = false := beq_eq_false_iff_ne.mpr hne
    have ih := execGo_every_fail registry store handler E origin lastId (d :: rest)
    obtain ⟨api, hl⟩ := Option.isSome_iff_exists.mp (hreg c (List.mem_cons_self _ _))
    have hca : candidateAvailable registry store c = isApiAvailable api store := by
      simp [candidateAvailable, hl]
    have hregs : ∀ x ∈ d :: rest, (lookupIn registry x).isSome = true :=
      fun x hx => hreg x (List.mem_cons_of_mem _ hx)
    have hdrops : ∀ x ∈ (d :: rest).dropLast, x ≠ lastId := by
      intro x hx
      apply hdrop
      simp only [List.dropLast]
      exact List.mem_cons_of_mem _ hx
    have hfails : ∀ x ∈ d :: rest, candidateAvailable registry store x = true →
        handler x = Except.error (E x) :=
      fun x hx => hfail x (List.mem_cons_of_mem _ hx)
    rw [execGo_cons]
    simp only [hl]
    by_cases ha : isApiAvailable api store = true
    · have hh := hfail c (List.mem_cons_self _ _) (hca.trans ha)
      rw [if_pos ha]
      simp only [hh]
      rw [if_neg (by simp [hne'])]
      rw [ih (some (E c)) (by simp) hlast' hregs hdrops hfails]
      have hcat : candidateAvailable registry store c = true := hca.trans ha
      simp [List.filter_cons, hcat]
    · have ha' : isApiAvailable api store = false := by
        cases hb : isApiAvailable api store
        · rfl
        · exact absurd hb ha
      rw [if_neg ha]
      rw [if_neg (by simp [hne'])]
      rw [ih (some (keyMissingMsg c)) (by simp) hlast' hregs hdrops hfails]
      have hcaf : candidateAvailable registry store c = false := hca.trans ha'
      simp [List.filter_cons, hcaf]

/-- Every call chain of the concrete catalog is sane. -/
theorem registry_chains_ok : ∀ p ∈ API_REGISTRY, chainOk p.1 = true := by decide

/-- The chain hypotheses of a registered primary id, extracted from
`registry_chains_ok`. -/
theorem chain_facts (apiId : String) (api : ApiDescriptor) (h : lookupApi apiId = some api) :
    (∀ c ∈ apiId :: api.fallbacks, (lookupApi c).isSome = true)
    ∧ (∀ c ∈ (apiId :: api.fallbacks).dropLast, c ≠ (apiId :: api.fallbacks).getLastD "") := by
  have hmem := lookup_mem _ _ _ h
  have hok : chainOk apiId = true := registry_chains_ok (apiId, api) hmem
  simp only [chainOk, h] at hok
  rw [Bool.and_eq_true] at hok
  obtain ⟨h1, h2⟩ := hok
  refine ⟨fun c hc => ?_, fun c hc => ?_⟩
  · exact List.all_eq_true.mp h1 c hc
  · exact bne_iff_ne.mp (List.all_eq_true.mp h2 c hc)

/-- Claim C4 (confirmed): a fallback-chain candidate whose descriptor
requires a credential that is absent from the store is never invoked —
every invoked candidate is registered and available — and the loop
advances past an unavailable non-final candidate to the rest of the
chain, recording only the credential-missing message. -/
theorem c4_preflight_skip :
    (∀ (registry : List (String × ApiDescriptor)) (store : CredStore)
       (handler : HandlerOracle) (apiId c : String),
        c ∈ (executeApiWithFallback registry store handler apiId).2 →
        ∃ api, lookupIn registry c = some api ∧ isApiAvailable api store = true)
    ∧ (∀ (registry : List (String × ApiDescriptor)) (store : CredStore)
         (handler : HandlerOracle) (origin lastId c : String) (rest : List String)
         (le : Option String) (api : ApiDescriptor),
        lookupIn registry c = some api → isApiAvailable api store = false →
        (c == lastId) = false →
        execGo registry store handler origin lastId (c :: rest) le
          = execGo registry store handler origin lastId rest (some (keyMissingMsg c))) := by
  constructor
  · intro registry store handler apiId c hc
    unfold executeApiWithFallback at hc
    cases hl : lookupIn registry apiId with
    | none => simp [hl] at hc
    | some api =>
      simp only [hl] at hc
      exact execGo_invoked_available registry store handler apiId _ _ _ c hc
  · intro registry store handler origin lastId c rest le api hl ha hlast
    rw [execGo_cons]
    simp only [hl]
    rw [if_neg (by simp [ha]), if_neg (by simp [hlast])]

/-- Witness for C4 at a concrete input: with only the OpenWeatherMap
key configured, running the weather chain invokes only
`openweather_current`, which is registered and available. -/
theorem c4_preflight_skip_witness :
    ("openweather_current"
        ∈ (executeApiWithFallback API_REGISTRY owOnlyStore owOnlyHandler "openweather_current").2)
    ∧ ∃ api, lookupIn API_REGISTRY "openweather_current" = some api
        ∧ isApiAvailable api owOnlyStore = true :=
  ⟨by decide,
   c4_preflight_skip.1 API_REGISTRY owOnlyStore owOnlyHandler "openweather_current"
     "openweather_current" (by decide)⟩

/-- Claim C5 (confirmed): when every candidate of a chain fails (an
always-failing handler oracle; unavailable candidates fail their
pre-flight check), `executeApiWithFallback` raises the
all-providers-failed error embedding the failure message of the last
candidate of the chain, and the invoked candidates are exactly the
available ones in chain order — the whole chain is exhausted before
any error surfaces. -/
theorem c5_last_error_surfaces (store : CredStore) (E : String → String) (apiId : String)
    (api : ApiDescriptor) (h : lookupApi apiId = some api) :
    executeApiWithFallback API_REGISTRY store (fun c => Except.error (E c)) apiId
      = (.error (.allFailed (allFailedMsg (some (candidateFailMsg API_REGISTRY store E
            ((apiId :: api.fallbacks).getLastD ""))))),
         (apiId :: api.fallbacks).filter
           (fun c => candidateAvailable API_REGISTRY store c)) := by
  obtain ⟨hreg, hdrop⟩ := chain_facts apiId api h
  have h' : lookupIn API_REGISTRY apiId = some api := h
  unfold executeApiWithFallback
  simp only [h']
  exact execGo_every_fail API_REGISTRY store (fun c => Except.error (E c)) E apiId
    ((apiId :: api.fallbacks).getLastD "") (apiId :: api.fallbacks) none (by simp) rfl
    hreg hdrop (fun c hc ha => rfl)

/-- Witness for C5 at a concrete input: the single-candidate chain of
`yahoo_finance` with an always-failing handler. -/
theorem c5_last_error_surfaces_witness :
    lookupApi "yahoo_finance" = some yahooDesc
    ∧ executeApiWithFallback API_REGISTRY emptyStore
          (fun c => Except.error ("boom-" ++ c)) "yahoo_finance"
        = (.error (.allFailed (allFailedMsg (some (candidateFailMsg API_REGISTRY emptyStore
              (fun c => "boom-" ++ c) (("yahoo_finance" :: yahooDesc.fallbacks).getLastD ""))))),
           ("yahoo_finance" :: yahooDesc.fallbacks).filter
             (fun c => candidateAvailable API_REGISTRY emptyStore c)) :=
  ⟨by decide,
   c5_last_error_surfaces emptyStore (fun c => "boom-" ++ c) "yahoo_finance" yahooDesc
     (by decide)⟩

/-- Claim C10 (confirmed): when every candidate of the chain requires a
credential and none is present, each pre-flight skip is recorded as the
running last error and the call fails with the all-providers-failed
error embedding the last candidate's credential-missing message; no
handler is invoked, and no distinct nothing-configured error exists. -/
theorem c10_all_skips_recorded (store : CredStore) (handler : HandlerOracle) (apiId : String)
    (api : ApiDescriptor) (h : lookupApi apiId = some api)
    (hun : ∀ c ∈ apiId :: api.fallbacks, candidateAvailable API_REGISTRY store c = false) :
    executeApiWithFallback API_REGISTRY store handler apiId
      = (.error (.allFailed (allFailedMsg (some (keyMissingMsg
            ((apiId :: api.fallbacks).getLastD ""))))), []) := by
  obtain ⟨hreg, hdrop⟩ := chain_facts apiId api h
  have h' : lookupIn API_REGISTRY apiId = some api := h
  unfold executeApiWithFallback
  simp only [h']
  have hlastmem : (apiId :: api.fallbacks).getLastD "" ∈ apiId :: api.fallbacks :=
    getLastD_cons_mem _ _
  rw [execGo_every_fail API_REGISTRY store handler (fun _ => "") apiId
    ((apiId :: api.fallbacks).getLastD "") (apiId :: api.fallbacks) none (by simp) rfl
    hreg hdrop (fun c hc ha => absurd ha (by simp [hun c hc]))]
  have hav : candidateAvailable API_REGISTRY store ((apiId :: api.fallbacks).getLastD "")
      = false := hun _ hlastmem
  have hmsg : candidateFailMsg API_REGISTRY store (fun _ => "")
      ((apiId :: api.fallbacks).getLastD "")
      = keyMissingMsg ((apiId :: api.fallbacks).getLastD "") := by
    unfold candidateFailMsg
    rw [if_neg (by rw [hav]; simp)]
  rw [hmsg]
  have hfil : (apiId :: api.fallbacks).filter
      (fun c => candidateAvailable API_REGISTRY store c) = [] :=
    List.filter_eq_nil_iff.mpr (fun a ha => by simp [hun a ha])
  rw [hfil]

/-- Witness for C10 at a concrete input: the all-credentialed movies
chain `omdb_search → tmdb_search` with an empty credential store. -/
theorem c10_all_skips_recorded_witness :
    lookupApi "omdb_search" = some omdbDesc
    ∧ (∀ c ∈ "omdb_search" :: omdbDesc.fallbacks,
        candidateAvailable API_REGISTRY emptyStore c = false)
    ∧ executeApiWithFallback API_REGISTRY emptyStore (fun _ => Except.ok "unused") "omdb_search"
        = (.error (.allFailed (allFailedMsg (some (keyMissingMsg
              (("omdb_search" :: omdbDesc.fallbacks).getLastD ""))))), []) :=
  ⟨by decide, by decide,
   c10_all_skips_recorded emptyStore (fun _ => Except.ok "unused") "omdb_search" omdbDesc
     (by decide) (by decide)⟩

/-- Counterexample for C9: in a registry whose `alpha` chain references
the nonexistent id `ghost`, the call on `alpha` (whose handler fails)
silently skips `ghost` and succeeds via `beta` — the typo'd reference
is never surfaced as a configuration error. -/
theorem c9_counterexample :
    lookupIn typoRegistry "ghost" = none
    ∧ (lookupIn typoRegistry "alpha").map (fun a => a.fallbacks) = some ["ghost", "beta"]
    ∧ executeApiWithFallback typoRegistry emptyStore typoHandler "alpha"
        = (.ok { data := "B", api := "beta", apiName := "Beta", wasFallback := true },
           ["alpha", "beta"]) := by
  refine ⟨by decide, by decide, by decide⟩

/-- Claim C9 as amended: an unknown primary id is surfaced as the
`Unknown API` configuration error before any candidate runs, but an
unknown id inside a fallback chain is silently skipped (the loop
`continue`s to the next candidate with the running error unchanged). -/
theorem c9_amended_unknown_id :
    (∀ (registry : List (String × ApiDescriptor)) (store : CredStore)
       (handler : HandlerOracle) (apiId : String),
        lookupIn registry apiId = none →
        executeApiWithFallback registry store handler apiId
          = (.error (.unknownApi ("Unknown API: " ++ apiId)), []))
    ∧ (∀ (registry : List (String × ApiDescriptor)) (store : CredStore)
         (handler : HandlerOracle) (origin lastId c : String) (rest : List String)
         (le : Option String),
        lookupIn registry c = none →
        execGo registry store handler origin lastId (c :: rest) le
          = execGo registry store handler origin lastId rest le) := by
  constructor
  · intro registry store handler apiId h
    unfold executeApiWithFallback
    simp only [h]
  · intro registry store handler origin lastId c rest le h
    rw [execGo_cons]
    simp only [h]

/-- Witness for the amended C9 at a concrete input. -/
theorem c9_amended_unknown_id_witness :
    lookupIn API_REGISTRY "definitely_not_real" = none
    ∧ executeApiWithFallback API_REGISTRY emptyStore (fun _ => Except.error "x")
          "definitely_not_real"
        = (.error (.unknownApi "Unknown API: definitely_not_real"), []) :=
  ⟨by decide,
   c9_amended_unknown_id.1 API_REGISTRY emptyStore (fun _ => Except.error "x")
     "definitely_not_real" (by decide)⟩

/-- Claim C2 (code bug): with `includeUnavailable = false` and an empty
credential store, the provider list for intent `weather` still contains
both weather providers, each of which requires a credential that the
store does not hold — the availability filter of `getApisForIntent`
never consults the store (its un-awaited `isApiAvailable` call is a
truthy Promise), contradicting the claim that selected providers have
their keys present. -/
theorem c2_unavailable_not_filtered :
    getApisForIntent "weather" false
      = [("openweather_current", owDesc), ("weatherapi_current", waDesc)]
    ∧ owDesc.requiresKey = true ∧ isApiAvailable owDesc emptyStore = false
    ∧ waDesc.requiresKey = true ∧ isApiAvailable waDesc emptyStore = false := by
  refine ⟨by decide, by decide, by decide, by decide, by decide⟩

/-- The classification of the query `"weather in Paris"`: only the
`weather` category scores (keyword `weather`, length 7) and the query
has 16 characters. -/
theorem detectIntent_weather_paris :
    detectIntent "weather in Paris"
      = { intent := "weather", confidence := 7 / 16, alternatives := [] } := by
  have h : intentScores "weather in Paris" = [("weather", 7)] := by decide
  have hlen : "weather in Paris".length = 16 := by decide
  unfold detectIntent
  rw [h]
  simp [sortDesc, insDesc, hlen]

/-- The multi-provider fan-out actually produced for the C3 scenario. -/
theorem smartApiSelection_weather_paris :
    smartApiSelection owOnlyStore owOnlyHandler "weather in Paris" { useMultiple := false }
      = .ok [ .ok "W" "openweather_current" "OpenWeatherMap Current" false
                (some "openweather_current"),
              .err "All APIs failed. Last error: API weatherapi_current requires a key but none found"
                "weatherapi_current" "WeatherAPI Current" ] := by
  have hapis : getApisForIntent "weather" false
      = [("openweather_current", owDesc), ("weatherapi_current", waDesc)] := by decide
  unfold smartApiSelection
  rw [detectIntent_weather_paris]
  simp only [hapis]
  have hcond : (false || decide ((7 : ℚ) / 16 < 1 / 2)) = true := by
    simp only [Bool.false_or, decide_eq_true_eq]
    norm_num
  rw [if_pos hcond]
  exact congrArg Except.ok (by decide)

/-- Claim C3 (code bug): for `executeForIntent("weather in Paris",
{ useMultiple: false })` with exactly one weather provider credentialed,
the result array has two entries, not one: the un-awaited availability
filter leaves both weather providers in the list and the classifier
confidence `7/16 < 0.5` forces the multi-provider branch, so the
uncredentialed provider is also executed (and fails through its
chain). -/
theorem c3_single_provider_expected :
    detectIntent "weather in Paris"
      = { intent := "weather", confidence := 7 / 16, alternatives := [] }
    ∧ owOnlyStore "openweather" = some "OW-KEY"
    ∧ owOnlyStore "rapidapi" = none
    ∧ smartApiSelection owOnlyStore owOnlyHandler "weather in Paris" { useMultiple := false }
        = .ok [ .ok "W" "openweather_current" "OpenWeatherMap Current" false
                  (some "openweather_current"),
                .err "All APIs failed. Last error: API weatherapi_current requires a key but none found"
                  "weatherapi_current" "WeatherAPI Current" ]
    ∧ ∃ l, smartApiSelection owOnlyStore owOnlyHandler "weather in Paris"
          { useMultiple := false } = .ok l ∧ l.length = 2 := by
  refine ⟨detectIntent_weather_paris, by decide, by decide, smartApiSelection_weather_paris,
    ⟨_, smartApiSelection_weather_paris, rfl⟩⟩

/-! ## Transport lemmas and claims -/

/-- Counterexample for C1: a custom retry predicate that always
returns `false` suppresses the retry of an HTTP 500 error — a member
of the built-in retryable set — with two attempts still remaining: the
call throws after the first attempt.  `shouldRetryError` returns the
custom verdict without consulting the built-in conditions. -/
theorem c1_counterexample :
    defaultRetryable err500 = true
    ∧ (1 : Nat) < 3
    ∧ robustFetch 3 (some (fun _ => false)) false failThenOk (fun _ => 0)
        = ([.attempt 1 false], .thrown err500) := by
  refine ⟨by decide, by decide, by decide⟩

/-- Claim C1 as amended: after a failed attempt that is neither the
first-attempt CORS switch nor the last allowed attempt, the loop
retries (sleeping the backoff delay before the next attempt) exactly
when the caller-supplied predicate returns `true` — the built-in
retryable set is consulted only when no predicate is supplied — and
otherwise throws immediately. -/
theorem c1_custom_predicate_decides (maxRetries : Nat) (cond : Option (FetchError → Bool))
    (outcome : Nat → Bool → AttemptOutcome) (random : Nat → ℚ) (fuel attempt : Nat)
    (proxy : Bool) (e : FetchError)
    (ho : outcome attempt proxy = .fail e)
    (hc : (isCorsError e && !proxy && (attempt == 1)) = false)
    (hl : attempt ≠ maxRetries) :
    robustLoop maxRetries cond outcome random (fuel + 1) attempt proxy
      = if (match cond with
            | some f => f e
            | none => defaultRetryable e) = true
        then (FetchEvent.attempt attempt proxy ::
                FetchEvent.sleep (getRetryDelay attempt (random attempt)) ::
                (robustLoop maxRetries cond outcome random fuel (attempt + 1) proxy).1,
              (robustLoop maxRetries cond outcome random fuel (attempt + 1) proxy).2)
        else ([FetchEvent.attempt attempt proxy], .thrown e) := by
  have hml : (attempt == maxRetries) = false := beq_eq_false_iff_ne.mpr hl
  simp only [robustLoop, ho]
  rw [hc]
  rw [if_neg Bool.false_ne_true]
  rw [hml]
  simp only [Bool.not_false, Bool.true_and]
  rfl

/-- Witness for the amended C1 at a concrete input (no predicate, a
retryable 500 error, attempts remaining). -/
theorem c1_custom_predicate_decides_witness :
    failThenOk 1 false = .fail err500
    ∧ (isCorsError err500 && !false && ((1 : Nat) == 1)) = false
    ∧ (1 : Nat) ≠ 3
    ∧ robustLoop 3 none failThenOk (fun _ => 0) (2 + 1) 1 false
        = if (match (none : Option (FetchError → Bool)) with
              | some f => f err500
              | none => defaultRetryable err500) = true
          then (FetchEvent.attempt 1 false ::
                  FetchEvent.sleep (getRetryDelay 1 ((fun _ => (0 : ℚ)) 1)) ::
                  (robustLoop 3 none failThenOk (fun _ => 0) 2 (1 + 1) false).1,
                (robustLoop 3 none failThenOk (fun _ => 0) 2 (1 + 1) false).2)
          else ([FetchEvent.attempt 1 false], .thrown err500) :=
  ⟨by decide, by decide, by decide,
   c1_custom_predicate_decides 3 none failThenOk (fun _ => 0) 2 1 false err500
     (by decide) (by decide) (by decide)⟩

/-- One-step unfolding of the attempt loop with fuel remaining. -/
theorem robustLoop_succ (maxR : Nat) (cond : Option (FetchError → Bool))
    (outcome : Nat → Bool → AttemptOutcome) (random : Nat → ℚ) (fuel attempt : Nat)
    (proxy : Bool) :
    robustLoop maxR cond outcome random (fuel + 1) attempt proxy
      = match outcome attempt proxy with
        | .ok d => ([.attempt attempt proxy], .success d)
        | .fail e =>
          if isCorsError e && !proxy && (attempt == 1) then
            (FetchEvent.attempt attempt proxy ::
               (robustLoop maxR cond outcome random fuel (attempt + 1) true).1,
             (robustLoop maxR cond outcome random fuel (attempt + 1) true).2)
          else if !(attempt == maxR) && shouldRetryError e cond then
            (FetchEvent.attempt attempt proxy ::
               FetchEvent.sleep (getRetryDelay attempt (random attempt)) ::
               (robustLoop maxR cond outcome random fuel (attempt + 1) proxy).1,
             (robustLoop maxR cond outcome random fuel (attempt + 1) proxy).2)
          else ([.attempt attempt proxy], .thrown e) :=
  rfl

/-- A loop started in proxy mode stays in proxy mode: every attempt of
its trace carries the proxy flag. -/
theorem attemptModes_proxy_replicate (maxR : Nat) (cond : Option (FetchError → Bool))
    (outcome : Nat → Bool → AttemptOutcome) (random : Nat → ℚ) :
    ∀ (fuel attempt : Nat),
      ∃ m, attemptModes (robustLoop maxR cond outcome random fuel attempt true).1
        = List.replicate m true
  | 0, attempt => ⟨0, rfl⟩
  | fuel + 1, attempt => by
    cases ho : outcome attempt true with
    | ok d => exact ⟨1, by simp [robustLoop, ho, attemptModes]⟩
    | fail e =>
      obtain ⟨m, hm⟩ := attemptModes_proxy_replicate maxR cond outcome random fuel (attempt + 1)
      cases hr : !(attempt == maxR) && shouldRetryError e cond with
      | true =>
        exact ⟨m + 1, by simp [robustLoop, ho, hr, attemptModes, hm, List.replicate_succ]⟩
      | false =>
        exact ⟨1, by simp [robustLoop, ho, hr, attemptModes]⟩

/-- A loop started in direct mode at an attempt number past the first
never switches: every attempt of its trace is direct. -/
theorem attemptModes_direct_replicate (maxR : Nat) (cond : Option (FetchError → Bool))
    (outcome : Nat → Bool → AttemptOutcome) (random : Nat → ℚ) :
    ∀ (fuel attempt : Nat), 2 ≤ attempt →
      ∃ m, attemptModes (robustLoop maxR cond outcome random fuel attempt false).1
        = List.replicate m false
  | 0, attempt, _ => ⟨0, rfl⟩
  | fuel + 1, attempt, h1 => by
    have h1' : (attempt == 1) = false := beq_eq_false_iff_ne.mpr (by omega)
    cases ho : outcome attempt false with
    | ok d => exact ⟨1, by simp [robustLoop, ho, attemptModes]⟩
    | fail e =>
      obtain ⟨m, hm⟩ := attemptModes_direct_replicate maxR cond outcome random fuel
        (attempt + 1) (by omega)
      cases hr : !(attempt == maxR) && shouldRetryError e cond with
      | true =>
        exact ⟨m + 1, by simp [robustLoop, ho, h1', hr, attemptModes, hm, List.replicate_succ]⟩
      | false =>
        exact ⟨1, by simp [robustLoop, ho, h1', hr, attemptModes]⟩

/-- Claim C6 (confirmed): within one `robustFetch` call the proxy
switch happens at most once — the trace's attempt modes are a block of
direct attempts followed by a block of proxy attempts — and when a call
that starts in direct mode contains any proxy attempt, exactly one
direct attempt precedes it and the first attempt failed with an error
classified as a CORS block; once entered, proxy mode persists for the
rest of the call.  A call started with `useProxy` stays entirely in
proxy mode. -/
theorem c6_proxy_switch (maxR : Nat) (cond : Option (FetchError → Bool))
    (outcome : Nat → Bool → AttemptOutcome) (random : Nat → ℚ) :
    (∃ k m, attemptModes (robustFetch maxR cond false outcome random).1
        = List.replicate k false ++ List.replicate m true
      ∧ (1 ≤ m → k = 1 ∧ ∃ e, outcome 1 false = .fail e ∧ isCorsError e = true))
    ∧ ∃ m, attemptModes (robustFetch maxR cond true outcome random).1
        = List.replicate m true := by
  constructor
  · unfold robustFetch
    cases hfuel : maxR with
    | zero =>
      exact ⟨0, 0, by simp [robustLoop, attemptModes], fun h => absurd h (by omega)⟩
    | succ n =>
      cases ho : outcome 1 false with
      | ok d =>
        exact ⟨1, 0, by simp [robustLoop, ho, attemptModes, List.replicate],
          fun h => absurd h (by omega)⟩
      | fail e =>
        cases hc : isCorsError e with
        | true =>
          obtain ⟨m, hm⟩ := attemptModes_proxy_replicate (n + 1) cond outcome random n 2
          refine ⟨1, m, ?_, fun _ => ⟨rfl, ⟨e, rfl, hc⟩⟩⟩
          rw [robustLoop_succ]
          simp [ho, hc, attemptModes, hm, List.replicate]
        | false =>
          cases n with
          | zero =>
            refine ⟨1, 0, ?_, fun h => absurd h (by omega)⟩
            rw [robustLoop_succ]
            simp [ho, hc, attemptModes, List.replicate]
          | succ n' =>
            cases hsr : shouldRetryError e cond with
            | true =>
              obtain ⟨m, hm⟩ := attemptModes_direct_replicate (n' + 2) cond outcome random
                (n' + 1) 2 (by omega)
              refine ⟨m + 1, 0, ?_, fun h => absurd h (by omega)⟩
              rw [robustLoop_succ]
              simp [ho, hc, hsr, attemptModes, hm, List.replicate_succ]
            | false =>
              refine ⟨1, 0, ?_, fun h => absurd h (by omega)⟩
              rw [robustLoop_succ]
              simp [ho, hc, hsr, attemptModes, List.replicate]
  · exact attemptModes_proxy_replicate maxR cond outcome random maxR 1

/-- Witness for C6 at a concrete input: two attempts, the first direct
attempt failing with a CORS error. -/
theorem c6_proxy_switch_witness :
    (∃ k m, attemptModes (robustFetch 2 none false corsThenOk (fun _ => 0)).1
        = List.replicate k false ++ List.replicate m true
      ∧ (1 ≤ m → k = 1 ∧ ∃ e, corsThenOk 1 false = .fail e ∧ isCorsError e = true))
    ∧ ∃ m, attemptModes (robustFetch 2 none true corsThenOk (fun _ => 0)).1
        = List.replicate m true :=
  c6_proxy_switch 2 none corsThenOk (fun _ => 0)

/-- With fuel remaining, the trace of the attempt loop starts with the
current attempt event. -/
theorem robustLoop_head (maxR : Nat) (cond : Option (FetchError → Bool))
    (outcome : Nat → Bool → AttemptOutcome) (random : Nat → ℚ) (fuel attempt : Nat)
    (proxy : Bool) (h : 1 ≤ fuel) :
    (robustLoop maxR cond outcome random fuel attempt proxy).1.get? 0
      = some (.attempt attempt proxy) := by
  cases fuel with
  | zero => omega
  | succ g =>
    cases ho : outcome attempt proxy with
    | ok d =>
      have heq : robustLoop maxR cond outcome random (g + 1) attempt proxy
          = ([.attempt attempt proxy], .success d) := by
        rw [robustLoop_succ, ho]
      rw [heq]
      simp [List.get?]
    | fail e =>
      cases hcors : isCorsError e && !proxy && (attempt == 1) with
      | true =>
        have heq : robustLoop maxR cond outcome random (g + 1) attempt proxy
            = (FetchEvent.attempt attempt proxy ::
                 (robustLoop maxR cond outcome random g (attempt + 1) true).1,
               (robustLoop maxR cond outcome random g (attempt + 1) true).2) := by
          rw [robustLoop_succ, ho]
          simp [hcors]
        rw [heq]
        simp [List.get?]
      | false =>
        cases hretry : !(attempt == maxR) && shouldRetryError e cond with
        | true =>
          have heq : robustLoop maxR cond outcome random (g + 1) attempt proxy
              = (FetchEvent.attempt attempt proxy ::
                   FetchEvent.sleep (getRetryDelay attempt (random attempt)) ::
                   (robustLoop maxR cond outcome random g (attempt + 1) proxy).1,
                 (robustLoop maxR cond outcome random g (attempt + 1) proxy).2) := by
            rw [robustLoop_succ, ho]
            simp [hcors, hretry]
          rw [heq]
          simp [List.get?]
        | false =>
          have heq : robustLoop maxR cond outcome random (g + 1) attempt proxy
              = ([.attempt attempt proxy], .thrown e) := by
            rw [robustLoop_succ, ho]
            simp [hcors, hretry]
          rw [heq]
          simp [List.get?]

/-- Every sleep event of the attempt loop's trace is the backoff delay
`getRetryDelay a (random a)` of some attempt `a` at or after the
current one, and is immediately followed by attempt `a + 1`.  The fuel
invariant `fuel + attempt = maxRetries + 1` is the one maintained by
`robustFetch`. -/
theorem robustLoop_sleep_shape (maxR : Nat) (cond : Option (FetchError → Bool))
    (outcome : Nat → Bool → AttemptOutcome) (random : Nat → ℚ) :
    ∀ (fuel attempt : Nat) (proxy : Bool), fuel + attempt = maxR + 1 →
      ∀ (i : Nat) (d : ℚ),
        (robustLoop maxR cond outcome random fuel attempt proxy).1.get? i
          = some (.sleep d) →
        ∃ a p, attempt ≤ a ∧ d = getRetryDelay a (random a)
          ∧ (robustLoop maxR cond outcome random fuel attempt proxy).1.get? (i + 1)
              = some (.attempt (a + 1) p)
  | 0, attempt, proxy, hinv, i, d, hget => by simp [robustLoop] at hget
  | fuel + 1, attempt, proxy, hinv, i, d, hget => by
    cases ho : outcome attempt proxy with
    | ok dd =>
      have heq : robustLoop maxR cond outcome random (fuel + 1) attempt proxy
          = ([.attempt attempt proxy], .success dd) := by
        rw [robustLoop_succ, ho]
      rw [heq] at hget
      cases i <;> simp [List.get?] at hget
    | fail e =>
      cases hcors : isCorsError e && !proxy && (attempt == 1) with
      | true =>
        have heq : robustLoop maxR cond outcome random (fuel + 1) attempt proxy
            = (FetchEvent.attempt attempt proxy ::
                 (robustLoop maxR cond outcome random fuel (attempt + 1) true).1,
               (robustLoop maxR cond outcome random fuel (attempt + 1) true).2) := by
          rw [robustLoop_succ, ho]
          simp [hcors]
        rw [heq] at hget ⊢
        cases i with
        | zero => simp [List.get?] at hget
        | succ j =>
          simp only [List.get?_cons_succ] at hget ⊢
          obtain ⟨a, p, ha, hd, hnext⟩ := robustLoop_sleep_shape maxR cond outcome random
            fuel (attempt + 1) true (by omega) j d hget
          exact ⟨a, p, by omega, hd, hnext⟩
      | false =>
        cases hretry : !(attempt == maxR) && shouldRetryError e cond with
        | true =>
          have hne : attempt ≠ maxR := by
            have hb : (attempt == maxR) = false := by
              cases hab : attempt == maxR
              · rfl
              · rw [hab] at hretry
                simp at hretry
            exact beq_eq_false_iff_ne.mp hb
          have hfuel1 : 1 ≤ fuel := by omega
          have heq : robustLoop maxR cond outcome random (fuel + 1) attempt proxy
              = (FetchEvent.attempt attempt proxy ::
                   FetchEvent.sleep (getRetryDelay attempt (random attempt)) ::
                   (robustLoop maxR cond outcome random fuel (attempt + 1) proxy).1,
                 (robustLoop maxR cond outcome random fuel (attempt + 1) proxy).2) := by
            rw [robustLoop_succ, ho]
            simp [hcors, hretry]
          rw [heq] at hget ⊢
          cases i with
          | zero => simp [List.get?] at hget
          | succ j =>
            cases j with
            | zero =>
              simp only [List.get?_cons_succ, List.get?_cons_zero] at hget
              injection hget with h1
              injection h1 with h2
              refine ⟨attempt, proxy, le_refl attempt, h2.symm, ?_⟩
              simp only [List.get?_cons_succ]
              exact robustLoop_head maxR cond outcome random fuel (attempt + 1) proxy hfuel1
            | succ j' =>
              simp only [List.get?_cons_succ] at hget ⊢
              obtain ⟨a, p, ha, hd, hnext⟩ := robustLoop_sleep_shape maxR cond outcome random
                fuel (attempt + 1) proxy (by omega) j' d hget
              exact ⟨a, p, by omega, hd, hnext⟩
        | false =>
          have heq : robustLoop maxR cond outcome random (fuel + 1) attempt proxy
              = ([.attempt attempt proxy], .thrown e) := by
            rw [robustLoop_succ, ho]
            simp [hcors, hretry]
          rw [heq] at hget
          cases i <;> simp [List.get?] at hget

/-- Counterexample for C7: when the first attempt fails with a CORS
error, the immediate proxy retry issues attempt 2 with no sleep at all
— the trace of this two-attempt run contains no sleep event, so the
retried attempt 2 is not preceded by a delay in
`[base*2^0, base*2^0 + base)`. -/
theorem c7_counterexample :
    robustFetch 2 none false corsThenOk (fun _ => 0)
      = ([.attempt 1 false, .attempt 2 true], .success "d")
    ∧ (∀ d, FetchEvent.sleep d ∉ [FetchEvent.attempt 1 false, FetchEvent.attempt 2 true])
    ∧ isCorsError corsErr = true
    ∧ corsThenOk 1 false = .fail corsErr := by
  refine ⟨by decide, ?_, by decide, by decide⟩
  intro d h
  simp at h

/-- Claim C7 as amended: with jitter draws in `[0, 1)`, every sleep
event of a `robustFetch` trace immediately precedes the attempt `n` it
backs off for (`n ≥ 2`) and its delay lies in
`[base * 2^(n-2), base * 2^(n-2) + base)` where `base` is
`RETRY_DELAY_BASE`; attempt 1 opens the trace with no preceding delay.
(The immediate proxy retry after a first-attempt CORS failure is issued
without any sleep, which is why the claim's universal form over all
retried attempts fails.) -/
theorem c7_backoff_bounds (maxR : Nat) (cond : Option (FetchError → Bool)) (useProxy : Bool)
    (outcome : Nat → Bool → AttemptOutcome) (random : Nat → ℚ)
    (hrand : ∀ n, 0 ≤ random n ∧ random n < 1) :
    (∀ (i : Nat) (d : ℚ),
       (robustFetch maxR cond useProxy outcome random).1.get? i = some (.sleep d) →
       ∃ n p, 2 ≤ n
         ∧ (robustFetch maxR cond useProxy outcome random).1.get? (i + 1)
             = some (.attempt n p)
         ∧ RETRY_DELAY_BASE * 2 ^ (n - 2) ≤ d
         ∧ d < RETRY_DELAY_BASE * 2 ^ (n - 2) + RETRY_DELAY_BASE)
    ∧ (1 ≤ maxR → (robustFetch maxR cond useProxy outcome random).1.get? 0
          = some (.attempt 1 useProxy)) := by
  constructor
  · intro i d hget
    obtain ⟨a, p, ha, hd, hnext⟩ := robustLoop_sleep_shape maxR cond outcome random
      maxR 1 useProxy (by omega) i d hget
    refine ⟨a + 1, p, by omega, hnext, ?_, ?_⟩
    · rw [hd]
      unfold getRetryDelay
      have h2 : a + 1 - 2 = a - 1 := by omega
      rw [h2]
      have h0 : (0 : ℚ) ≤ random a * 1000 := mul_nonneg (hrand a).1 (by norm_num)
      linarith
    · rw [hd]
      unfold getRetryDelay RETRY_DELAY_BASE
      have h2 : a + 1 - 2 = a - 1 := by omega
      rw [h2]
      have hlt : random a * 1000 < 1000 := by
        have := (hrand a).2
        nlinarith
      linarith
  · intro h
    exact robustLoop_head maxR cond outcome random maxR 1 useProxy h

/-- Witness for the amended C7 at a concrete input: one retryable
failure then success, constant jitter one half. -/
theorem c7_backoff_bounds_witness :
    (∀ n, 0 ≤ halfJitter n ∧ halfJitter n < 1)
    ∧ ((∀ (i : Nat) (d : ℚ),
         (robustFetch 2 none false failThenOk halfJitter).1.get? i = some (.sleep d) →
         ∃ n p, 2 ≤ n
           ∧ (robustFetch 2 none false failThenOk halfJitter).1.get? (i + 1)
               = some (.attempt n p)
           ∧ RETRY_DELAY_BASE * 2 ^ (n - 2) ≤ d
           ∧ d < RETRY_DELAY_BASE * 2 ^ (n - 2) + RETRY_DELAY_BASE)
      ∧ (1 ≤ 2 → (robustFetch 2 none false failThenOk halfJitter).1.get? 0
            = some (.attempt 1 false))) :=
  ⟨fun n => ⟨by norm_num [halfJitter], by norm_num [halfJitter]⟩,
   c7_backoff_bounds 2 none false failThenOk halfJitter
     (fun n => ⟨by norm_num [halfJitter], by norm_num [halfJitter]⟩)⟩

end ShadowTracker
